import Mathlib

/-!
Shallow embedding of `src/backend/tax_engine.py` (DeFi tax engine: FIFO/LIFO/HIFO
cost-basis accounting).

Modelling conventions:
* Python `Decimal` values are modelled as exact rationals (`ℚ`); the engine's
  arithmetic (`min`, `+`, `-`, `*`, `/`) is exact on the decimal values the
  engine manipulates.
* `datetime.datetime` is modelled at whole-day granularity by `Date`, carrying
  the proleptic ordinal day number (`days`, as in Python's `toordinal`) and the
  calendar year.  `(d2 - d1).days` becomes `d2.days - d1.days`; datetime
  comparison becomes comparison of `days`.
* Python dicts keyed by asset are modelled as functions `String → List TaxLot`
  with pointwise update; `defaultdict(list)` lookup of a missing key is the
  empty list.
* Python's `sorted` is a stable sort: elements with equal keys keep their
  original relative order, and `reverse=True` also keeps equal-key elements in
  original order.  A stable sort by key `k` (resp. reversed) produces the
  unique permutation sorted by the total order "`k` ascending (resp.
  descending), ties by original index ascending"; we therefore sort
  index-tagged lots with `List.insertionSort` under exactly that total order.
-/

/-- Calendar timestamp at day granularity: proleptic ordinal day number and
calendar year (as read off by `.year` in the source). -/
structure Date where
  days : Int
  year : Int
deriving DecidableEq

/-- `TaxLot` from `tax_engine.py`: a single cost-basis lot. -/
structure TaxLot where
  asset : String
  amount : ℚ
  cost_basis_usd : ℚ
  acquired_date : Date
  tx_hash : String
  protocol : String
  lot_id : String
deriving DecidableEq

/-- `TaxLot.unit_cost` property: `cost_basis_usd / amount`, zero when the lot
amount is zero. -/
def TaxLot.unit_cost (lot : TaxLot) : ℚ :=
  if lot.amount = 0 then 0 else lot.cost_basis_usd / lot.amount

/-- `TaxEvent` from `tax_engine.py`: a taxable disposal record. -/
structure TaxEvent where
  asset : String
  amount_disposed : ℚ
  proceeds_usd : ℚ
  cost_basis_usd : ℚ
  gain_loss_usd : ℚ
  acquired_date : Date
  disposed_date : Date
  holding_period : String
  tx_hash : String
  protocol : String
  event_type : String
deriving DecidableEq

/-- `IncomeEvent` from `tax_engine.py`. -/
structure IncomeEvent where
  asset : String
  amount : ℚ
  fair_market_value_usd : ℚ
  date : Date
  tx_hash : String
  protocol : String
  income_type : String
deriving DecidableEq

/-- State of a `TaxEngine` instance: method string, per-asset lot lists, and
the accumulated tax / income events. -/
structure TaxEngine where
  method : String
  lots : String → List TaxLot
  tax_events : List TaxEvent
  income_events : List IncomeEvent

/-- `str.upper()` (Python) on the ASCII method strings in play: uppercase each
character. -/
def strUpper (s : String) : String :=
  ⟨s.data.map Char.toUpper⟩

/-- `TaxEngine.__init__`: uppercases the method string and starts with empty
ledger state.  Note: the constructor performs no validation of the method. -/
def TaxEngine.new (cost_basis_method : String) : TaxEngine :=
  { method := strUpper cost_basis_method
    lots := fun _ => []
    tax_events := []
    income_events := [] }

/-- `TaxEngine.add_acquisition`: appends a new lot for the asset and returns
it.  The source performs no validation of `amount` or `cost_basis_usd`. -/
def TaxEngine.add_acquisition (e : TaxEngine) (asset : String)
    (amount cost_basis_usd : ℚ) (acquired_date : Date)
    (tx_hash protocol : String) : TaxEngine × TaxLot :=
  let lot : TaxLot :=
    { asset := asset
      amount := amount
      cost_basis_usd := cost_basis_usd
      acquired_date := acquired_date
      tx_hash := tx_hash
      protocol := protocol
      lot_id := tx_hash.take 8 ++ "-" ++ asset ++ "-" ++ toString (e.lots asset).length }
  ({ e with lots := fun a => if a = asset then e.lots asset ++ [lot] else e.lots a }, lot)

/-- Stable-sort order, ascending by `key`, ties by original index: the order
realised by Python's stable `sorted(..., key=key)` on index-tagged elements. -/
def stableAsc {β : Type} [LinearOrder β] (key : Nat × TaxLot → β)
    (p q : Nat × TaxLot) : Prop :=
  key p < key q ∨ (key p = key q ∧ p.1 ≤ q.1)

/-- Stable-sort order, descending by `key`, ties by original index: the order
realised by Python's stable `sorted(..., key=key, reverse=True)` (which keeps
equal-key elements in original order). -/
def stableDesc {β : Type} [LinearOrder β] (key : Nat × TaxLot → β)
    (p q : Nat × TaxLot) : Prop :=
  key q < key p ∨ (key p = key q ∧ p.1 ≤ q.1)

instance {β : Type} [LinearOrder β] (key : Nat × TaxLot → β) :
    DecidableRel (stableAsc key) := fun _ _ => by
  unfold stableAsc; exact inferInstance

instance {β : Type} [LinearOrder β] (key : Nat × TaxLot → β) :
    DecidableRel (stableDesc key) := fun _ _ => by
  unfold stableDesc; exact inferInstance

/-- FIFO consumption order: ascending acquisition date, ties by insertion
order (`sorted(lots, key=lambda l: l.acquired_date)`). -/
def fifoOrder : Nat × TaxLot → Nat × TaxLot → Prop :=
  stableAsc (fun p => p.2.acquired_date.days)

/-- LIFO consumption order: descending acquisition date, ties by insertion
order (`sorted(lots, key=lambda l: l.acquired_date, reverse=True)`). -/
def lifoOrder : Nat × TaxLot → Nat × TaxLot → Prop :=
  stableDesc (fun p => p.2.acquired_date.days)

/-- HIFO consumption order: descending unit cost, ties by insertion order
(`sorted(lots, key=lambda l: l.unit_cost, reverse=True)`). -/
def hifoOrder : Nat × TaxLot → Nat × TaxLot → Prop :=
  stableDesc (fun p => p.2.unit_cost)

instance : DecidableRel fifoOrder := fun p q => by
  unfold fifoOrder; exact inferInstance

instance : DecidableRel lifoOrder := fun p q => by
  unfold lifoOrder; exact inferInstance

instance : DecidableRel hifoOrder := fun p q => by
  unfold hifoOrder; exact inferInstance

/-- `TaxEngine._sort_lots` on index-tagged lots.  `current_price` is accepted
and ignored exactly as in the source.  An unknown method falls through to the
unsorted list. -/
def TaxEngine.sort_lots (e : TaxEngine) (lots : List (Nat × TaxLot))
    (current_price : ℚ) : List (Nat × TaxLot) :=
  if e.method = "FIFO" then lots.insertionSort fifoOrder
  else if e.method = "LIFO" then lots.insertionSort lifoOrder
  else if e.method = "HIFO" then lots.insertionSort hifoOrder
  else lots

/-- The lot-consumption step of `add_disposal` (lines 141-143 and 168-169 of
the source): returns `(disposed_amount, cost_basis, updated lot)`. -/
def consumeLot (lot : TaxLot) (remaining : ℚ) : ℚ × ℚ × TaxLot :=
  let disposed_amount := min remaining lot.amount
  let proportion := if 0 < lot.amount then disposed_amount / lot.amount else 0
  let cost_basis := lot.cost_basis_usd * proportion
  (disposed_amount, cost_basis,
    { lot with
        amount := lot.amount - disposed_amount
        cost_basis_usd := lot.cost_basis_usd - cost_basis })

/-- The matching loop of `add_disposal` over the sorted, index-tagged lots:
returns the emitted events (in order) and the updated lots keyed by their
index in the stored per-asset list. -/
def matchLots (asset : String) (amount proceeds_usd : ℚ) (disposed_date : Date)
    (tx_hash protocol event_type : String) :
    List (Nat × TaxLot) → ℚ → List TaxEvent × List (Nat × TaxLot)
  | [], _ => ([], [])
  | (i, lot) :: rest, remaining =>
    if remaining ≤ 0 then ([], [])
    else if lot.amount ≤ 0 then
      matchLots asset amount proceeds_usd disposed_date tx_hash protocol event_type
        rest remaining
    else
      let c := consumeLot lot remaining
      let proceeds := if 0 < amount then proceeds_usd * (c.1 / amount) else 0
      let days_held := disposed_date.days - lot.acquired_date.days
      let event : TaxEvent :=
        { asset := asset
          amount_disposed := c.1
          proceeds_usd := proceeds
          cost_basis_usd := c.2.1
          gain_loss_usd := proceeds - c.2.1
          acquired_date := lot.acquired_date
          disposed_date := disposed_date
          holding_period := if 365 < days_held then "long" else "short"
          tx_hash := tx_hash
          protocol := protocol
          event_type := event_type }
      let next := matchLots asset amount proceeds_usd disposed_date tx_hash protocol
        event_type rest (remaining - c.1)
      (event :: next.1, (i, c.2.2) :: next.2)

/-- Writes the in-place lot mutations of the matching loop back into the
stored per-asset list (in Python the sorted list aliases the stored lot
objects; here updates are keyed by the lot's index in the stored list). -/
def applyUpdates (lots : List TaxLot) (ups : List (Nat × TaxLot)) : List TaxLot :=
  lots.enum.map fun p =>
    match ups.find? (fun u => u.1 = p.1) with
    | some u => u.2
    | none => p.2

/-- `TaxEngine.add_disposal`: zero-cost-basis fallback when the asset has no
lot list at all, otherwise match against the sorted lots.  Returns the new
engine state and the list of emitted events.  Note: an unmatched remainder is
not part of the returned value. -/
def TaxEngine.add_disposal (e : TaxEngine) (asset : String)
    (amount proceeds_usd : ℚ) (disposed_date : Date)
    (tx_hash protocol : String) (event_type : String := "swap") :
    TaxEngine × List TaxEvent :=
  let asset_lots := e.lots asset
  if asset_lots.isEmpty then
    let event : TaxEvent :=
      { asset := asset
        amount_disposed := amount
        proceeds_usd := proceeds_usd
        cost_basis_usd := 0
        gain_loss_usd := proceeds_usd
        acquired_date := disposed_date
        disposed_date := disposed_date
        holding_period := "short"
        tx_hash := tx_hash
        protocol := protocol
        event_type := event_type }
    ({ e with tax_events := e.tax_events ++ [event] }, [event])
  else
    let sorted_lots :=
      e.sort_lots asset_lots.enum (if 0 < amount then proceeds_usd / amount else 0)
    let r := matchLots asset amount proceeds_usd disposed_date tx_hash protocol
      event_type sorted_lots amount
    ({ e with
        lots := fun a => if a = asset then applyUpdates asset_lots r.2 else e.lots a
        tax_events := e.tax_events ++ r.1 }, r.1)

/-- `TaxEngine.add_income`: records the income event, then unconditionally
creates a lot at FMV cost basis via `add_acquisition`. -/
def TaxEngine.add_income (e : TaxEngine) (asset : String) (amount fmv_usd : ℚ)
    (date : Date) (tx_hash protocol income_type : String) :
    TaxEngine × IncomeEvent :=
  let event : IncomeEvent :=
    { asset := asset
      amount := amount
      fair_market_value_usd := fmv_usd
      date := date
      tx_hash := tx_hash
      protocol := protocol
      income_type := income_type }
  let e1 := { e with income_events := e.income_events ++ [event] }
  ((e1.add_acquisition asset amount fmv_usd date tx_hash protocol).1, event)

/-- `Decimal.quantize(Decimal("0.01"), rounding=ROUND_HALF_UP)` rounds ties
away from zero; this is the integer rounding of `x` under that rule. -/
def roundHalfUp (x : ℚ) : ℤ :=
  if 0 ≤ x then ⌊x + 1 / 2⌋ else -⌊-x + 1 / 2⌋

/-- Quantization to cents with `ROUND_HALF_UP`, as used by
`generate_summary`. -/
def quantCentsHalfUp (x : ℚ) : ℚ :=
  (roundHalfUp (x * 100) : ℚ) / 100

/-- `Decimal.quantize(Decimal("0.01"))` uses the default `ROUND_HALF_EVEN`
(ties to the even neighbour); this is the integer rounding of `x` under that
rule. -/
def roundHalfEven (x : ℚ) : ℤ :=
  if x - ⌊x⌋ < 1 / 2 then ⌊x⌋
  else if 1 / 2 < x - ⌊x⌋ then ⌊x⌋ + 1
  else if 2 ∣ ⌊x⌋ then ⌊x⌋ else ⌊x⌋ + 1

/-- Quantization to cents with the default `ROUND_HALF_EVEN`, as used by
`generate_form_8949` and `export_csv`. -/
def quantCentsHalfEven (x : ℚ) : ℚ :=
  (roundHalfEven (x * 100) : ℚ) / 100

/-- The tax-event filter of the report generators: `if tax_year:` in Python is
a truthiness test, so a year of `0` (like `None`) disables filtering. -/
def filterEventsByYear (events : List TaxEvent) : Option Int → List TaxEvent
  | none => events
  | some y => if y ≠ 0 then events.filter (fun ev => ev.disposed_date.year = y) else events

/-- The income-event filter of `generate_summary` (same truthiness rule). -/
def filterIncomeByYear (income : List IncomeEvent) : Option Int → List IncomeEvent
  | none => income
  | some y => if y ≠ 0 then income.filter (fun ev => ev.date.year = y) else income

/-- The numeric content of the dictionary returned by
`TaxEngine.generate_summary` (the monetary strings are modelled by the exact
cent-quantized rationals they print; the `by_type` and `protocols_used`
groupings are not needed by any claim and are omitted). -/
structure Summary where
  tax_year : Option Int
  cost_basis_method : String
  short_term_total : ℚ
  short_term_events : Nat
  long_term_total : ℚ
  long_term_events : Nat
  net_total : ℚ
  income_total : ℚ
  income_events : Nat
  total_transactions : Nat
deriving DecidableEq

/-- The value of a Python `sum(...)` over Decimals: the empty sum is the *int*
`0` (the default start value), a non-empty sum is a `Decimal`. -/
inductive PySum where
  | intZero : PySum
  | dec : ℚ → PySum
deriving DecidableEq

/-- Python `sum` over a list of Decimals. -/
def pySum (l : List ℚ) : PySum :=
  if l.isEmpty then .intZero else .dec l.sum

/-- Python `+` on two such sums: `int 0` is an additive identity, and adding a
`Decimal` to it yields a `Decimal`. -/
def pySumAdd : PySum → PySum → PySum
  | .intZero, y => y
  | .dec x, .intZero => .dec x
  | .dec x, .dec y => .dec (x + y)

/-- `.quantize(Decimal("0.01"), rounding=ROUND_HALF_UP)` applied to a Python
sum: the int `0` of an empty category has no `.quantize` attribute, so the
call raises `AttributeError` (modelled as `none`). -/
def pyQuantHalfUp : PySum → Option ℚ
  | .intZero => none
  | .dec x => some (quantCentsHalfUp x)

/-- `TaxEngine.generate_summary`.  Building the result dictionary calls
`.quantize` on each category sum, so the whole call raises (returns `none`)
whenever any of the short-term, long-term, net or income sums is the int `0`
of an empty category. -/
def TaxEngine.generate_summary (e : TaxEngine) (tax_year : Option Int) :
    Option Summary :=
  let events := filterEventsByYear e.tax_events tax_year
  let income := filterIncomeByYear e.income_events tax_year
  let short_term_gains :=
    pySum ((events.filter fun ev => ev.holding_period = "short").map
      fun ev => ev.gain_loss_usd)
  let long_term_gains :=
    pySum ((events.filter fun ev => ev.holding_period = "long").map
      fun ev => ev.gain_loss_usd)
  let total_income := pySum (income.map fun ev => ev.fair_market_value_usd)
  match pyQuantHalfUp short_term_gains, pyQuantHalfUp long_term_gains,
      pyQuantHalfUp (pySumAdd short_term_gains long_term_gains),
      pyQuantHalfUp total_income with
  | some st, some lt, some net, some inc =>
    some { tax_year := tax_year
           cost_basis_method := e.method
           short_term_total := st
           short_term_events := (events.filter fun ev => ev.holding_period = "short").length
           long_term_total := lt
           long_term_events := (events.filter fun ev => ev.holding_period = "long").length
           net_total := net
           income_total := inc
           income_events := income.length
           total_transactions := events.length }
  | _, _, _, _ => none

/-- One record of `TaxEngine.generate_form_8949` (the `description` string is
modelled by its constituents; the `strftime`-formatted date strings are
modelled by the `Date` values they render, the rendering being injective). -/
structure Form8949Row where
  amount_disposed : ℚ
  asset : String
  protocol : String
  date_acquired : Date
  date_sold : Date
  proceeds : ℚ
  cost_basis : ℚ
  gain_loss : ℚ
  term : String
  tx_hash : String
deriving DecidableEq

/-- The per-event row construction of `generate_form_8949`. -/
def form8949Row (event : TaxEvent) : Form8949Row :=
  { amount_disposed := event.amount_disposed
    asset := event.asset
    protocol := event.protocol
    date_acquired := event.acquired_date
    date_sold := event.disposed_date
    proceeds := quantCentsHalfEven event.proceeds_usd
    cost_basis := quantCentsHalfEven event.cost_basis_usd
    gain_loss := quantCentsHalfEven event.gain_loss_usd
    term := if event.holding_period = "short" then "A" else "D"
    tx_hash := event.tx_hash }

/-- `TaxEngine.generate_form_8949`. -/
def TaxEngine.generate_form_8949 (e : TaxEngine) (tax_year : Option Int) :
    List Form8949Row :=
  (filterEventsByYear e.tax_events tax_year).map form8949Row

/-- One record of `TaxEngine.export_csv` (ISO date strings modelled by the
`Date` values they render). -/
structure CsvRow where
  date_sold : Date
  date_acquired : Date
  asset : String
  amount : ℚ
  proceeds_usd : ℚ
  cost_basis_usd : ℚ
  gain_loss_usd : ℚ
  holding_period : String
  protocol : String
  event_type : String
  tx_hash : String
deriving DecidableEq

/-- The per-event row construction of `export_csv`. -/
def csvRow (event : TaxEvent) : CsvRow :=
  { date_sold := event.disposed_date
    date_acquired := event.acquired_date
    asset := event.asset
    amount := event.amount_disposed
    proceeds_usd := quantCentsHalfEven event.proceeds_usd
    cost_basis_usd := quantCentsHalfEven event.cost_basis_usd
    gain_loss_usd := quantCentsHalfEven event.gain_loss_usd
    holding_period := event.holding_period
    protocol := event.protocol
    event_type := event.event_type
    tx_hash := event.tx_hash }

/-- `TaxEngine.export_csv` (row list; the CSV header line carries no data). -/
def TaxEngine.export_csv (e : TaxEngine) (tax_year : Option Int) : List CsvRow :=
  (filterEventsByYear e.tax_events tax_year).map csvRow

/-- A mutating call on one engine instance. -/
inductive LedgerOp where
  | acquisition (asset : String) (amount cost_basis_usd : ℚ) (acquired_date : Date)
      (tx_hash protocol : String)
  | disposal (asset : String) (amount proceeds_usd : ℚ) (disposed_date : Date)
      (tx_hash protocol event_type : String)
  | income (asset : String) (amount fmv_usd : ℚ) (date : Date)
      (tx_hash protocol income_type : String)

/-- Applies one mutating call to the engine state. -/
def applyOp (e : TaxEngine) : LedgerOp → TaxEngine
  | .acquisition asset amount cb d tx pr => (e.add_acquisition asset amount cb d tx pr).1
  | .disposal asset amount proceeds d tx pr et =>
      (e.add_disposal asset amount proceeds d tx pr et).1
  | .income asset amount fmv d tx pr it => (e.add_income asset amount fmv d tx pr it).1

/-- Runs a sequence of mutating calls. -/
def runOps (e : TaxEngine) (ops : List LedgerOp) : TaxEngine :=
  ops.foldl applyOp e

/-- The spec's input-validity domain for lot-creating calls: positive amount,
non-negative USD value (disposals create no lot). -/
def validOp : LedgerOp → Prop
  | .acquisition _ amount cb _ _ _ => 0 < amount ∧ 0 ≤ cb
  | .disposal _ _ _ _ _ _ _ => True
  | .income _ amount fmv _ _ _ _ => 0 < amount ∧ 0 ≤ fmv

/-- The lot invariant of the spec's data model: amount and cost basis are
non-negative and reach zero together. -/
def lotOk (lot : TaxLot) : Prop :=
  0 ≤ lot.amount ∧ 0 ≤ lot.cost_basis_usd ∧ (lot.amount = 0 → lot.cost_basis_usd = 0)

/-- One acquisition input of a single-asset acquisition batch. -/
structure AcqInput where
  amount : ℚ
  cost_basis_usd : ℚ
  acquired_date : Date
  tx_hash : String
  protocol : String

/-- Runs a batch of acquisitions of one asset, in order. -/
def acquireAll (e : TaxEngine) (asset : String) (acqs : List AcqInput) : TaxEngine :=
  acqs.foldl
    (fun e a => (e.add_acquisition asset a.amount a.cost_basis_usd a.acquired_date
      a.tx_hash a.protocol).1) e

/-- The lot invariant over the whole engine state. -/
def engineOk (e : TaxEngine) : Prop :=
  ∀ asset : String, ∀ lot ∈ e.lots asset, lotOk lot

instance {β : Type} [LinearOrder β] (key : Nat × TaxLot → β) :
    IsTotal (Nat × TaxLot) (stableAsc key) := by
  refine ⟨fun p q => ?_⟩
  unfold stableAsc
  rcases lt_trichotomy (key p) (key q) with h | h | h
  · exact Or.inl (Or.inl h)
  · rcases Nat.le_total p.1 q.1 with hi | hi
    · exact Or.inl (Or.inr ⟨h, hi⟩)
    · exact Or.inr (Or.inr ⟨h.symm, hi⟩)
  · exact Or.inr (Or.inl h)

instance {β : Type} [LinearOrder β] (key : Nat × TaxLot → β) :
    IsTrans (Nat × TaxLot) (stableAsc key) := by
  refine ⟨fun p q r h1 h2 => ?_⟩
  unfold stableAsc at h1 h2 ⊢
  rcases h1 with h1 | ⟨h1e, h1i⟩ <;> rcases h2 with h2 | ⟨h2e, h2i⟩
  · exact Or.inl (h1.trans h2)
  · exact Or.inl (lt_of_lt_of_eq h1 h2e)
  · exact Or.inl (lt_of_eq_of_lt h1e h2)
  · exact Or.inr ⟨h1e.trans h2e, h1i.trans h2i⟩

instance {β : Type} [LinearOrder β] (key : Nat × TaxLot → β) :
    IsTotal (Nat × TaxLot) (stableDesc key) := by
  refine ⟨fun p q => ?_⟩
  unfold stableDesc
  rcases lt_trichotomy (key p) (key q) with h | h | h
  · exact Or.inr (Or.inl h)
  · rcases Nat.le_total p.1 q.1 with hi | hi
    · exact Or.inl (Or.inr ⟨h, hi⟩)
    · exact Or.inr (Or.inr ⟨h.symm, hi⟩)
  · exact Or.inl (Or.inl h)

instance {β : Type} [LinearOrder β] (key : Nat × TaxLot → β) :
    IsTrans (Nat × TaxLot) (stableDesc key) := by
  refine ⟨fun p q r h1 h2 => ?_⟩
  unfold stableDesc at h1 h2 ⊢
  rcases h1 with h1 | ⟨h1e, h1i⟩ <;> rcases h2 with h2 | ⟨h2e, h2i⟩
  · exact Or.inl (h2.trans h1)
  · exact Or.inl (lt_of_eq_of_lt h2e.symm h1)
  · exact Or.inl (lt_of_lt_of_eq h2 h1e.symm)
  · exact Or.inr ⟨h1e.trans h2e, h1i.trans h2i⟩

instance : IsTotal (Nat × TaxLot) fifoOrder := by unfold fifoOrder; infer_instance

instance : IsTrans (Nat × TaxLot) fifoOrder := by unfold fifoOrder; infer_instance

instance : IsTotal (Nat × TaxLot) lifoOrder := by unfold lifoOrder; infer_instance

instance : IsTrans (Nat × TaxLot) lifoOrder := by unfold lifoOrder; infer_instance

instance : IsTotal (Nat × TaxLot) hifoOrder := by unfold hifoOrder; infer_instance

instance : IsTrans (Nat × TaxLot) hifoOrder := by unfold hifoOrder; infer_instance

theorem sort_lots_perm (e : TaxEngine) (l : List (Nat × TaxLot)) (price : ℚ) :
    (e.sort_lots l price).Perm l := by
  unfold TaxEngine.sort_lots
  split_ifs <;> first | exact List.perm_insertionSort _ _ | exact List.Perm.refl _

theorem sort_lots_mem {e : TaxEngine} {l : List (Nat × TaxLot)} {price : ℚ}
    {p : Nat × TaxLot} (h : p ∈ e.sort_lots l price) : p ∈ l :=
  (sort_lots_perm e l price).mem_iff.mp h

theorem mem_of_mem_enum {α : Type} {l : List α} {p : Nat × α} (h : p ∈ l.enum) :
    p.2 ∈ l := by
  rw [List.mem_enum_iff_getElem?] at h
  exact List.getElem?_mem h

theorem consumeLot_ok (lot : TaxLot) (remaining : ℚ) (hl : lotOk lot)
    (ha : 0 < lot.amount) : lotOk (consumeLot lot remaining).2.2 := by
  obtain ⟨-, hcb, -⟩ := hl
  have hane : lot.amount ≠ 0 := ne_of_gt ha
  unfold consumeLot lotOk
  simp only [if_pos ha]
  refine ⟨?_, ?_, ?_⟩
  · show 0 ≤ lot.amount - min remaining lot.amount
    have h1 : min remaining lot.amount ≤ lot.amount := min_le_right _ _
    linarith
  · show 0 ≤ lot.cost_basis_usd -
      lot.cost_basis_usd * (min remaining lot.amount / lot.amount)
    have hdiv : min remaining lot.amount / lot.amount ≤ 1 := by
      rw [div_le_one ha]; exact min_le_right _ _
    have h2 := mul_le_of_le_one_right hcb hdiv
    linarith
  · show lot.amount - min remaining lot.amount = 0 →
      lot.cost_basis_usd - lot.cost_basis_usd * (min remaining lot.amount / lot.amount) = 0
    intro h0
    have hda : min remaining lot.amount = lot.amount := by linarith
    rw [hda, div_self hane]
    ring

theorem consumeLot_unit_cost (lot : TaxLot) (remaining : ℚ)
    (hr : 0 < remaining) (hra : remaining < lot.amount) :
    ((consumeLot lot remaining).2.2).unit_cost = lot.unit_cost := by
  have ha : 0 < lot.amount := hr.trans hra
  have hane : lot.amount ≠ 0 := ne_of_gt ha
  have hd : min remaining lot.amount = remaining := min_eq_left hra.le
  have hne2 : lot.amount - remaining ≠ 0 := ne_of_gt (by linarith)
  unfold consumeLot TaxLot.unit_cost
  simp only [if_pos ha, hd]
  rw [if_neg hne2, if_neg hane]
  field_simp
  ring

theorem consumeLot_full_amount (lot : TaxLot) (remaining : ℚ)
    (hle : lot.amount ≤ remaining) : (consumeLot lot remaining).1 = lot.amount := by
  unfold consumeLot
  show min remaining lot.amount = lot.amount
  exact min_eq_right hle

theorem consumeLot_full_cb (lot : TaxLot) (remaining : ℚ) (ha : 0 < lot.amount)
    (hle : lot.amount ≤ remaining) :
    (consumeLot lot remaining).2.1 = lot.cost_basis_usd := by
  unfold consumeLot
  show lot.cost_basis_usd * (if 0 < lot.amount then min remaining lot.amount / lot.amount else 0) =
    lot.cost_basis_usd
  rw [if_pos ha, min_eq_right hle, div_self (ne_of_gt ha), mul_one]

theorem ite_holding_iff (c : Prop) [Decidable c] :
    ((if c then "long" else "short") = "long") ↔ c := by
  split_ifs with h
  · exact ⟨fun _ => h, fun _ => rfl⟩
  · exact ⟨fun hs => absurd hs (by decide), fun hc => absurd hc h⟩

theorem matchLots_updates_ok (asset : String) (amount proceeds_usd : ℚ) (d : Date)
    (tx pr et : String) :
    ∀ (idxlots : List (Nat × TaxLot)) (remaining : ℚ),
      (∀ p ∈ idxlots, lotOk p.2) →
      ∀ q ∈ (matchLots asset amount proceeds_usd d tx pr et idxlots remaining).2,
        lotOk q.2 := by
  intro idxlots
  induction idxlots with
  | nil =>
    intro remaining _ q hq
    simp [matchLots] at hq
  | cons p rest ih =>
    intro remaining h q hq
    obtain ⟨i, lot⟩ := p
    simp only [matchLots] at hq
    by_cases h1 : remaining ≤ 0
    · rw [if_pos h1] at hq
      simp at hq
    · rw [if_neg h1] at hq
      by_cases h2 : lot.amount ≤ 0
      · rw [if_pos h2] at hq
        exact ih remaining (fun p hp => h p (List.mem_cons_of_mem _ hp)) q hq
      · rw [if_neg h2] at hq
        rcases List.mem_cons.mp hq with hq | hq
        · subst hq
          exact consumeLot_ok lot remaining (h (i, lot) (List.mem_cons_self _ _))
            (not_le.mp h2)
        · exact ih _ (fun p hp => h p (List.mem_cons_of_mem _ hp)) q hq

theorem matchLots_events_holding (asset : String) (amount proceeds_usd : ℚ) (d : Date)
    (tx pr et : String) :
    ∀ (idxlots : List (Nat × TaxLot)) (remaining : ℚ),
      ∀ ev ∈ (matchLots asset amount proceeds_usd d tx pr et idxlots remaining).1,
        ev.disposed_date = d ∧
          (ev.holding_period = "long" ↔ 365 < d.days - ev.acquired_date.days) := by
  intro idxlots
  induction idxlots with
  | nil =>
    intro remaining ev hev
    simp [matchLots] at hev
  | cons p rest ih =>
    intro remaining ev hev
    obtain ⟨i, lot⟩ := p
    simp only [matchLots] at hev
    by_cases h1 : remaining ≤ 0
    · rw [if_pos h1] at hev
      simp at hev
    · rw [if_neg h1] at hev
      by_cases h2 : lot.amount ≤ 0
      · rw [if_pos h2] at hev
        exact ih remaining ev hev
      · rw [if_neg h2] at hev
        rcases List.mem_cons.mp hev with hev | hev
        · subst hev
          exact ⟨rfl, ite_holding_iff _⟩
        · exact ih _ ev hev

theorem matchLots_conserve (asset : String) (amount proceeds_usd : ℚ) (d : Date)
    (tx pr et : String) :
    ∀ idxlots : List (Nat × TaxLot),
      (∀ p ∈ idxlots, 0 < p.2.amount) →
      (((matchLots asset amount proceeds_usd d tx pr et idxlots
            ((idxlots.map fun p => p.2.amount).sum)).1.map
          fun ev => ev.cost_basis_usd).sum =
        (idxlots.map fun p => p.2.cost_basis_usd).sum) ∧
      (((matchLots asset amount proceeds_usd d tx pr et idxlots
            ((idxlots.map fun p => p.2.amount).sum)).1.map
          fun ev => ev.amount_disposed).sum =
        (idxlots.map fun p => p.2.amount).sum) := by
  intro idxlots
  induction idxlots with
  | nil =>
    intro _
    simp [matchLots]
  | cons p rest ih =>
    intro h
    obtain ⟨i, lot⟩ := p
    have hpos : 0 < lot.amount := h (i, lot) (List.mem_cons_self _ _)
    have hS : 0 ≤ (rest.map fun p => p.2.amount).sum := by
      apply List.sum_nonneg
      intro x hx
      rw [List.mem_map] at hx
      obtain ⟨q, hq, rfl⟩ := hx
      exact (h q (List.mem_cons_of_mem _ hq)).le
    have hrest := ih fun p hp => h p (List.mem_cons_of_mem _ hp)
    simp only [List.map_cons, List.sum_cons]
    have hn1 : ¬(lot.amount + (rest.map fun p => p.2.amount).sum ≤ 0) := by linarith
    have hle : lot.amount ≤ lot.amount + (rest.map fun p => p.2.amount).sum := by linarith
    have hn2 : ¬(lot.amount ≤ 0) := by linarith
    simp only [matchLots]
    rw [if_neg hn1, if_neg hn2]
    simp only [List.map_cons, List.sum_cons]
    rw [consumeLot_full_amount lot _ hle, consumeLot_full_cb lot _ hpos hle]
    have harg : lot.amount + (rest.map fun p => p.2.amount).sum - lot.amount =
        (rest.map fun p => p.2.amount).sum := by ring
    rw [harg]
    exact ⟨by rw [hrest.1], by rw [hrest.2]⟩

theorem applyUpdates_mem (lots : List TaxLot) (ups : List (Nat × TaxLot)) :
    ∀ x ∈ applyUpdates lots ups, x ∈ lots ∨ ∃ i, (i, x) ∈ ups := by
  intro x hx
  unfold applyUpdates at hx
  rw [List.mem_map] at hx
  obtain ⟨p, hp, hpe⟩ := hx
  cases hfind : ups.find? fun u => u.1 = p.1 with
  | none =>
    left
    rw [hfind] at hpe
    rw [← hpe]
    exact mem_of_mem_enum hp
  | some u =>
    right
    rw [hfind] at hpe
    refine ⟨u.1, ?_⟩
    have hu : u ∈ ups := List.mem_of_find?_eq_some hfind
    rw [← hpe]
    exact hu

theorem engineOk_new (m : String) : engineOk (TaxEngine.new m) := by
  intro a lot hmem
  simp [TaxEngine.new] at hmem

theorem add_acquisition_ok (e : TaxEngine) (asset : String) (amount cb : ℚ)
    (d : Date) (tx pr : String) (ham : 0 < amount) (hcb : 0 ≤ cb)
    (he : engineOk e) : engineOk (e.add_acquisition asset amount cb d tx pr).1 := by
  intro a lot hmem
  unfold TaxEngine.add_acquisition at hmem
  dsimp only at hmem
  by_cases ha : a = asset
  · rw [if_pos ha] at hmem
    rcases List.mem_append.mp hmem with hx | hx
    · exact he asset lot (ha ▸ hx)
    · rw [List.mem_singleton] at hx
      subst hx
      exact ⟨ham.le, hcb, fun h0 => absurd h0 (ne_of_gt ham)⟩
  · rw [if_neg ha] at hmem
    exact he a lot hmem

theorem add_income_ok (e : TaxEngine) (asset : String) (amount fmv : ℚ)
    (d : Date) (tx pr it : String) (ham : 0 < amount) (hf : 0 ≤ fmv)
    (he : engineOk e) : engineOk (e.add_income asset amount fmv d tx pr it).1 := by
  unfold TaxEngine.add_income
  dsimp only
  exact add_acquisition_ok _ asset amount fmv d tx pr ham hf (fun a lot hm => he a lot hm)

theorem add_disposal_ok (e : TaxEngine) (asset : String) (amount proceeds_usd : ℚ)
    (d : Date) (tx pr et : String) (he : engineOk e) :
    engineOk (e.add_disposal asset amount proceeds_usd d tx pr et).1 := by
  intro a lot hmem
  unfold TaxEngine.add_disposal at hmem
  by_cases hemp : (e.lots asset).isEmpty
  · rw [if_pos hemp] at hmem
    exact he a lot hmem
  · rw [if_neg hemp] at hmem
    dsimp only at hmem
    by_cases ha : a = asset
    · rw [if_pos ha] at hmem
      have hall : ∀ p ∈ e.sort_lots (e.lots asset).enum
          (if 0 < amount then proceeds_usd / amount else 0), lotOk p.2 := by
        intro p hp
        exact he asset p.2 (mem_of_mem_enum (sort_lots_mem hp))
      rcases applyUpdates_mem _ _ lot hmem with hx | ⟨j, hj⟩
      · exact he asset lot hx
      · exact matchLots_updates_ok asset amount proceeds_usd d tx pr et _ amount hall
          (j, lot) hj
    · rw [if_neg ha] at hmem
      exact he a lot hmem

theorem applyOp_ok (e : TaxEngine) (op : LedgerOp) (hv : validOp op)
    (he : engineOk e) : engineOk (applyOp e op) := by
  cases op with
  | acquisition asset amount cb d tx pr =>
    exact add_acquisition_ok e asset amount cb d tx pr hv.1 hv.2 he
  | disposal asset amount proceeds d tx pr et =>
    exact add_disposal_ok e asset amount proceeds d tx pr et he
  | income asset amount fmv d tx pr it =>
    exact add_income_ok e asset amount fmv d tx pr it hv.1 hv.2 he

theorem runOps_ok (ops : List LedgerOp) :
    ∀ e : TaxEngine, engineOk e → (∀ op ∈ ops, validOp op) →
      engineOk (runOps e ops) := by
  induction ops with
  | nil =>
    intro e he _
    exact he
  | cons op rest ih =>
    intro e he hv
    exact ih (applyOp e op) (applyOp_ok e op (hv op (List.mem_cons_self _ _)) he)
      fun o ho => hv o (List.mem_cons_of_mem _ ho)

theorem add_disposal_no_lots (e : TaxEngine) (asset : String) (amount proceeds_usd : ℚ)
    (d : Date) (tx pr et : String) (h : e.lots asset = []) :
    (e.add_disposal asset amount proceeds_usd d tx pr et).2 =
      [{ asset := asset, amount_disposed := amount, proceeds_usd := proceeds_usd,
         cost_basis_usd := 0, gain_loss_usd := proceeds_usd, acquired_date := d,
         disposed_date := d, holding_period := "short", tx_hash := tx,
         protocol := pr, event_type := et }] := by
  unfold TaxEngine.add_disposal
  simp [h]

theorem add_disposal_events_holding (e : TaxEngine) (asset : String)
    (amount proceeds_usd : ℚ) (d : Date) (tx pr et : String) :
    ∀ ev ∈ (e.add_disposal asset amount proceeds_usd d tx pr et).2,
      ev.disposed_date = d ∧
        (ev.holding_period = "long" ↔ 365 < d.days - ev.acquired_date.days) := by
  intro ev hev
  unfold TaxEngine.add_disposal at hev
  by_cases hemp : (e.lots asset).isEmpty
  · rw [if_pos hemp] at hev
    rw [List.mem_singleton] at hev
    subst hev
    refine ⟨rfl, ?_⟩
    show ("short" = "long") ↔ 365 < d.days - d.days
    constructor
    · intro hs
      exact absurd hs (by decide)
    · intro hlt
      exact absurd hlt (by omega)
  · rw [if_neg hemp] at hev
    exact matchLots_events_holding asset amount proceeds_usd d tx pr et _ amount ev hev

theorem enum_map_snd_comp {α β : Type} (l : List α) (f : α → β) :
    l.enum.map (fun p => f p.2) = l.map f := by
  have h1 : (l.enum.map Prod.snd).map f = l.map f := by rw [List.enum_map_snd]
  have h2 : (l.enum.map Prod.snd).map f = l.enum.map (f ∘ Prod.snd) := List.map_map f _ _
  exact (h2.symm.trans h1 : l.enum.map (fun p => f p.2) = l.map f)

theorem add_disposal_conserve (e : TaxEngine) (asset : String) (proceeds_usd : ℚ)
    (d : Date) (tx pr et : String)
    (hpos : ∀ lot ∈ e.lots asset, 0 < lot.amount) :
    (((e.add_disposal asset (((e.lots asset).map fun l => l.amount).sum) proceeds_usd
          d tx pr et).2.map fun ev => ev.cost_basis_usd).sum =
      ((e.lots asset).map fun l => l.cost_basis_usd).sum) ∧
    (((e.add_disposal asset (((e.lots asset).map fun l => l.amount).sum) proceeds_usd
          d tx pr et).2.map fun ev => ev.amount_disposed).sum =
      ((e.lots asset).map fun l => l.amount).sum) := by
  by_cases hemp : (e.lots asset).isEmpty
  · have hnil : e.lots asset = [] := by rwa [List.isEmpty_iff] at hemp
    rw [add_disposal_no_lots e asset _ proceeds_usd d tx pr et hnil, hnil]
    simp
  · unfold TaxEngine.add_disposal
    rw [if_neg hemp]
    dsimp only
    have hperm : (e.sort_lots (e.lots asset).enum
        (if 0 < ((e.lots asset).map fun l => l.amount).sum then
          proceeds_usd / ((e.lots asset).map fun l => l.amount).sum else 0)).Perm
        (e.lots asset).enum := sort_lots_perm _ _ _
    have hallpos : ∀ p ∈ e.sort_lots (e.lots asset).enum
        (if 0 < ((e.lots asset).map fun l => l.amount).sum then
          proceeds_usd / ((e.lots asset).map fun l => l.amount).sum else 0),
        0 < p.2.amount := by
      intro p hp
      exact hpos p.2 (mem_of_mem_enum (sort_lots_mem hp))
    have hsumA : ((e.sort_lots (e.lots asset).enum
        (if 0 < ((e.lots asset).map fun l => l.amount).sum then
          proceeds_usd / ((e.lots asset).map fun l => l.amount).sum else 0)).map
          fun p => p.2.amount).sum = ((e.lots asset).map fun l => l.amount).sum := by
      rw [(hperm.map fun p => p.2.amount).sum_eq, enum_map_snd_comp]
    have hsumC : ((e.sort_lots (e.lots asset).enum
        (if 0 < ((e.lots asset).map fun l => l.amount).sum then
          proceeds_usd / ((e.lots asset).map fun l => l.amount).sum else 0)).map
          fun p => p.2.cost_basis_usd).sum =
        ((e.lots asset).map fun l => l.cost_basis_usd).sum := by
      rw [(hperm.map fun p => p.2.cost_basis_usd).sum_eq, enum_map_snd_comp]
    have hc := matchLots_conserve asset (((e.lots asset).map fun l => l.amount).sum)
      proceeds_usd d tx pr et _ hallpos
    rw [hsumA, hsumC] at hc
    exact hc

theorem add_acquisition_lots_asset (e : TaxEngine) (asset : String) (amount cb : ℚ)
    (d : Date) (tx pr : String) :
    ((e.add_acquisition asset amount cb d tx pr).1).lots asset =
      e.lots asset ++ [(e.add_acquisition asset amount cb d tx pr).2] := by
  unfold TaxEngine.add_acquisition
  dsimp only
  rw [if_pos rfl]

theorem acquireAll_lots_proj (asset : String) (acqs : List AcqInput) :
    ∀ e : TaxEngine,
      ((acquireAll e asset acqs).lots asset).map (fun l => (l.amount, l.cost_basis_usd)) =
        ((e.lots asset).map fun l => (l.amount, l.cost_basis_usd)) ++
          acqs.map fun a => (a.amount, a.cost_basis_usd) := by
  induction acqs with
  | nil =>
    intro e
    simp [acquireAll]
  | cons a rest ih =>
    intro e
    have step : acquireAll e asset (a :: rest) =
        acquireAll ((e.add_acquisition asset a.amount a.cost_basis_usd a.acquired_date
          a.tx_hash a.protocol).1) asset rest := rfl
    rw [step, ih, add_acquisition_lots_asset]
    simp
    exact ⟨rfl, rfl⟩

/-- C6: starting from lots created with positive amount and non-negative cost
basis, every reachable lot keeps `amount ≥ 0`, `cost_basis_usd ≥ 0`, and the
two reach zero together; and a partial consumption by the disposal loop leaves
the lot's unit cost (`cost_basis_usd / amount`) unchanged. -/
theorem C6_lot_invariants :
    (∀ (m : String) (ops : List LedgerOp), (∀ op ∈ ops, validOp op) →
      engineOk (runOps (TaxEngine.new m) ops)) ∧
    (∀ (lot : TaxLot) (remaining : ℚ), 0 < remaining → remaining < lot.amount →
      ((consumeLot lot remaining).2.2).unit_cost = lot.unit_cost) :=
  ⟨fun m ops hv => runOps_ok ops _ (engineOk_new m) hv,
   fun lot remaining h1 h2 => consumeLot_unit_cost lot remaining h1 h2⟩

/-- C7: for acquisitions of one asset followed by a single disposal of exactly
the summed acquired amount, the emitted events' cost bases sum to the original
lots' cost bases and the disposed amounts sum to the requested amount. -/
theorem C7_conservation (m asset : String) (acqs : List AcqInput) (proceeds_usd : ℚ)
    (d : Date) (tx pr et : String) (hpos : ∀ a ∈ acqs, 0 < a.amount) :
    ((((acquireAll (TaxEngine.new m) asset acqs).add_disposal asset
          ((acqs.map fun a => a.amount).sum) proceeds_usd d tx pr et).2.map
        fun ev => ev.cost_basis_usd).sum = (acqs.map fun a => a.cost_basis_usd).sum) ∧
    ((((acquireAll (TaxEngine.new m) asset acqs).add_disposal asset
          ((acqs.map fun a => a.amount).sum) proceeds_usd d tx pr et).2.map
        fun ev => ev.amount_disposed).sum = (acqs.map fun a => a.amount).sum) := by
  have hmap := acquireAll_lots_proj asset acqs (TaxEngine.new m)
  rw [show (TaxEngine.new m).lots asset = [] from rfl] at hmap
  simp only [List.map_nil, List.nil_append] at hmap
  have hA : ((acquireAll (TaxEngine.new m) asset acqs).lots asset).map
      (fun l => l.amount) = acqs.map fun a => a.amount := by
    have h := congrArg (List.map Prod.fst) hmap
    rw [List.map_map, List.map_map] at h
    exact h
  have hC : ((acquireAll (TaxEngine.new m) asset acqs).lots asset).map
      (fun l => l.cost_basis_usd) = acqs.map fun a => a.cost_basis_usd := by
    have h := congrArg (List.map Prod.snd) hmap
    rw [List.map_map, List.map_map] at h
    exact h
  have hpl : ∀ lot ∈ (acquireAll (TaxEngine.new m) asset acqs).lots asset,
      0 < lot.amount := by
    intro lot hl
    have hm2 : (lot.amount, lot.cost_basis_usd) ∈
        ((acquireAll (TaxEngine.new m) asset acqs).lots asset).map
          fun l => (l.amount, l.cost_basis_usd) :=
      List.mem_map_of_mem _ hl
    rw [hmap, List.mem_map] at hm2
    obtain ⟨a, ha, heq⟩ := hm2
    have h1 : a.amount = lot.amount := congrArg Prod.fst heq
    rw [← h1]
    exact hpos a ha
  rw [show (acqs.map fun a => a.amount).sum =
      (((acquireAll (TaxEngine.new m) asset acqs).lots asset).map
        fun l => l.amount).sum from by rw [hA],
    show (acqs.map fun a => a.cost_basis_usd).sum =
      (((acquireAll (TaxEngine.new m) asset acqs).lots asset).map
        fun l => l.cost_basis_usd).sum from by rw [hC]]
  exact add_disposal_conserve _ asset proceeds_usd d tx pr et hpl

/-- C8: every tax event emitted by `add_disposal` carries the disposal date,
and is classified "long" exactly when the whole-day difference between the
disposal date and the event's (matched lot's) acquisition date strictly
exceeds 365. -/
theorem C8_holding_period (e : TaxEngine) (asset : String) (amount proceeds_usd : ℚ)
    (d : Date) (tx pr et : String) :
    ∀ ev ∈ (e.add_disposal asset amount proceeds_usd d tx pr et).2,
      ev.disposed_date = d ∧
        (ev.holding_period = "long" ↔ 365 < d.days - ev.acquired_date.days) :=
  add_disposal_events_holding e asset amount proceeds_usd d tx pr et

/-- C5 (amended): when the asset has no lot list at all, `add_disposal` emits
exactly one zero-cost-basis tax event with gain equal to the proceeds and a
"short" holding period. -/
theorem C5_empty_fallback (e : TaxEngine) (asset : String) (amount proceeds_usd : ℚ)
    (d : Date) (tx pr et : String) (h : e.lots asset = []) :
    (e.add_disposal asset amount proceeds_usd d tx pr et).2 =
      [{ asset := asset, amount_disposed := amount, proceeds_usd := proceeds_usd,
         cost_basis_usd := 0, gain_loss_usd := proceeds_usd, acquired_date := d,
         disposed_date := d, holding_period := "short", tx_hash := tx,
         protocol := pr, event_type := et }] :=
  add_disposal_no_lots e asset amount proceeds_usd d tx pr et h

/-- C10: a zero-cost-basis fallback disposal emits one event whose acquisition
date equals its disposal date and whose disposed amount is the full requested
amount, so its Form 8949 row and CSV row show identical acquisition and sale
dates. -/
theorem C10_fallback_dates (e : TaxEngine) (asset : String) (amount proceeds_usd : ℚ)
    (d : Date) (tx pr et : String) (h : e.lots asset = []) :
    (e.add_disposal asset amount proceeds_usd d tx pr et).2.length = 1 ∧
    ∀ ev ∈ (e.add_disposal asset amount proceeds_usd d tx pr et).2,
      ev.acquired_date = ev.disposed_date ∧ ev.amount_disposed = amount ∧
      (form8949Row ev).date_acquired = (form8949Row ev).date_sold ∧
      (csvRow ev).date_acquired = (csvRow ev).date_sold := by
  rw [add_disposal_no_lots e asset amount proceeds_usd d tx pr et h]
  refine ⟨rfl, ?_⟩
  intro ev hev
  rw [List.mem_singleton] at hev
  subst hev
  exact ⟨rfl, rfl, rfl, rfl⟩

/-- C4 (amended): `_sort_lots` orders open lots as a permutation sorted by the
method's total order — FIFO: ascending acquisition date with ties by insertion
index; LIFO: descending acquisition date with ties by insertion index; HIFO:
descending unit cost with ties by insertion index. -/
theorem C4_stable_order (e : TaxEngine) (idxlots : List (Nat × TaxLot)) (price : ℚ) :
    (e.method = "FIFO" →
      (e.sort_lots idxlots price).Perm idxlots ∧
        List.Sorted fifoOrder (e.sort_lots idxlots price)) ∧
    (e.method = "LIFO" →
      (e.sort_lots idxlots price).Perm idxlots ∧
        List.Sorted lifoOrder (e.sort_lots idxlots price)) ∧
    (e.method = "HIFO" →
      (e.sort_lots idxlots price).Perm idxlots ∧
        List.Sorted hifoOrder (e.sort_lots idxlots price)) := by
  refine ⟨fun hm => ?_, fun hm => ?_, fun hm => ?_⟩
  · unfold TaxEngine.sort_lots
    rw [if_pos hm]
    exact ⟨List.perm_insertionSort _ _, List.sorted_insertionSort _ _⟩
  · have hne : ¬e.method = "FIFO" := by rw [hm]; decide
    unfold TaxEngine.sort_lots
    rw [if_neg hne, if_pos hm]
    exact ⟨List.perm_insertionSort _ _, List.sorted_insertionSort _ _⟩
  · have hne : ¬e.method = "FIFO" := by rw [hm]; decide
    have hne2 : ¬e.method = "LIFO" := by rw [hm]; decide
    unfold TaxEngine.sort_lots
    rw [if_neg hne, if_neg hne2, if_pos hm]
    exact ⟨List.perm_insertionSort _ _, List.sorted_insertionSort _ _⟩

/-- 2024-01-01 as proleptic ordinal day number. -/
def day20240101 : Date := ⟨738886, 2024⟩

/-- 2024-06-01 as proleptic ordinal day number. -/
def day20240601 : Date := ⟨739038, 2024⟩

/-- 2024-07-01 as proleptic ordinal day number. -/
def day20240701 : Date := ⟨739068, 2024⟩

/-- FIFO engine holding lot A (10 UNI, $50, 2024-01-01) and lot B
(10 UNI, $100, 2024-06-01). -/
def uniFifoEngine : TaxEngine :=
  (((TaxEngine.new "FIFO").add_acquisition "UNI" 10 50 day20240101 "0xaaaa1111"
      "uniswap").1.add_acquisition "UNI" 10 100 day20240601 "0xbbbb2222" "uniswap").1

/-- First expected event of the C9 scenario. -/
def uniEv1 : TaxEvent :=
  { asset := "UNI", amount_disposed := 10, proceeds_usd := 200, cost_basis_usd := 50,
    gain_loss_usd := 150, acquired_date := day20240101, disposed_date := day20240701,
    holding_period := "short", tx_hash := "0xcccc3333", protocol := "uniswap",
    event_type := "swap" }

/-- Second expected event of the C9 scenario. -/
def uniEv2 : TaxEvent :=
  { asset := "UNI", amount_disposed := 5, proceeds_usd := 100, cost_basis_usd := 50,
    gain_loss_usd := 50, acquired_date := day20240601, disposed_date := day20240701,
    holding_period := "short", tx_hash := "0xcccc3333", protocol := "uniswap",
    event_type := "swap" }

/-- C9 (code evaluation at the failing input): disposing 15 UNI for $300 on
2024-07-01 against the two lots emits exactly the two expected events in
order, but `generate_summary(2024)` then raises instead of reporting — both
events are short-term, so the long-term (and income) category sums are the
int `0`, whose `.quantize` call raises `AttributeError`. -/
theorem C9_summary_crash :
    (uniFifoEngine.add_disposal "UNI" 15 300 day20240701 "0xcccc3333" "uniswap"
        "swap").2 = [uniEv1, uniEv2] ∧
    ((uniFifoEngine.add_disposal "UNI" 15 300 day20240701 "0xcccc3333" "uniswap"
        "swap").1.generate_summary (some 2024)) = none := by
  have hevs : (uniFifoEngine.add_disposal "UNI" 15 300 day20240701 "0xcccc3333" "uniswap"
      "swap").2 = [uniEv1, uniEv2] := by
    norm_num [uniFifoEngine, uniEv1, uniEv2, TaxEngine.new, strUpper,
      TaxEngine.add_acquisition, TaxEngine.add_disposal, TaxEngine.sort_lots, matchLots,
      consumeLot, min_def, day20240101, day20240601, day20240701, fifoOrder, stableAsc,
      List.insertionSort, List.orderedInsert, TaxLot.unit_cost]
  have htx : (uniFifoEngine.add_disposal "UNI" 15 300 day20240701 "0xcccc3333" "uniswap"
      "swap").1.tax_events = [uniEv1, uniEv2] := by
    norm_num [uniFifoEngine, uniEv1, uniEv2, TaxEngine.new, strUpper,
      TaxEngine.add_acquisition, TaxEngine.add_disposal, TaxEngine.sort_lots, matchLots,
      consumeLot, min_def, day20240101, day20240601, day20240701, fifoOrder, stableAsc,
      List.insertionSort, List.orderedInsert, TaxLot.unit_cost]
  refine ⟨hevs, ?_⟩
  simp only [TaxEngine.generate_summary]
  rw [htx]
  simp [filterEventsByYear, uniEv1, uniEv2, day20240101, day20240601, day20240701,
    pySum, pySumAdd, pyQuantHalfUp]

/-- FIFO engine holding a single lot of 5 UNI ($10 basis). -/
def c1Engine : TaxEngine :=
  ((TaxEngine.new "FIFO").add_acquisition "UNI" 5 10 day20240101 "0xaaaa1111" "uniswap").1

/-- C1 (code evaluation at the failing input): disposing 8 UNI against a single
5-UNI lot matches only 5 and the returned events are the whole result — the
unmatched remainder 3 appears nowhere in the return value. -/
theorem C1_remainder_dropped :
    ((c1Engine.add_disposal "UNI" 8 80 day20240701 "0xbbbb2222" "uniswap" "swap").2.map
        fun ev => ev.amount_disposed).sum = 5 ∧ (5 : ℚ) < 8 := by
  constructor
  · norm_num [c1Engine, TaxEngine.new, strUpper, TaxEngine.add_acquisition,
      TaxEngine.add_disposal, TaxEngine.sort_lots, matchLots, consumeLot, min_def,
      day20240101, day20240701, fifoOrder, stableAsc, List.insertionSort,
      List.orderedInsert, TaxLot.unit_cost]
  · norm_num

/-- C2 (code evaluation at the failing input): an acquisition with negative
amount and negative cost basis is accepted and appended to the ledger — no
input-validation error and the state is mutated. -/
theorem C2_no_validation :
    ((((TaxEngine.new "FIFO").add_acquisition "UNI" (-5) (-7) day20240101 "0xaaaa1111"
        "uniswap").1).lots "UNI").map (fun l => (l.amount, l.cost_basis_usd)) =
      [((-5 : ℚ), (-7 : ℚ))] := by
  norm_num [TaxEngine.new, TaxEngine.add_acquisition]

/-- Engine built with the unknown method "AVG", holding two UNI lots whose
insertion order (dates 2024-06-01 then 2024-01-01) differs from date order. -/
def c3Engine : TaxEngine :=
  (((TaxEngine.new "AVG").add_acquisition "UNI" 1 10 day20240601 "0xaaaa1111"
      "uniswap").1.add_acquisition "UNI" 1 20 day20240101 "0xbbbb2222" "uniswap").1

/-- C3 (code evaluation at the failing input): constructing with method "AVG"
succeeds (no configuration error) and a disposal proceeds, matching the lots
in raw insertion order. -/
theorem C3_no_failfast :
    (TaxEngine.new "AVG").method = "AVG" ∧
    ((c3Engine.add_disposal "UNI" 2 30 day20240701 "0xcccc3333" "uniswap" "swap").2.map
        fun ev => ev.acquired_date.days) = [day20240601.days, day20240101.days] := by
  constructor
  · rfl
  · norm_num [c3Engine, TaxEngine.new, strUpper, TaxEngine.add_acquisition,
      TaxEngine.add_disposal, TaxEngine.sort_lots, matchLots, consumeLot, min_def,
      day20240101, day20240601, day20240701, TaxLot.unit_cost]

/-- LIFO engine with two lots acquired on the same date (basis $10 then $20). -/
def lifoTieEngine : TaxEngine :=
  (((TaxEngine.new "LIFO").add_acquisition "UNI" 1 10 day20240101 "0xaaaa1111"
      "uniswap").1.add_acquisition "UNI" 1 20 day20240101 "0xbbbb2222" "uniswap").1

/-- HIFO engine with two lots of equal unit cost, inserted newest-date first
(2024-06-01 then 2024-01-01). -/
def hifoTieEngine : TaxEngine :=
  (((TaxEngine.new "HIFO").add_acquisition "UNI" 1 10 day20240601 "0xaaaa1111"
      "uniswap").1.add_acquisition "UNI" 1 10 day20240101 "0xbbbb2222" "uniswap").1

/-- C4 (counterexample): on equal-date lots, LIFO consumes in insertion order
([$10, $20] bases), not reverse insertion order ([$20, $10]); on equal-unit-cost
lots, HIFO consumes in insertion order (dates [2024-06-01, 2024-01-01]), not
ascending acquisition date ([2024-01-01, 2024-06-01]). -/
theorem C4_tie_break_cex :
    (((lifoTieEngine.add_disposal "UNI" 2 30 day20240701 "0xcccc3333" "uniswap"
          "swap").2.map fun ev => ev.cost_basis_usd) = [10, 20] ∧
      ([10, 20] : List ℚ) ≠ [20, 10]) ∧
    (((hifoTieEngine.add_disposal "UNI" 2 30 day20240701 "0xcccc3333" "uniswap"
          "swap").2.map fun ev => ev.acquired_date.days) =
        [day20240601.days, day20240101.days] ∧
      ([day20240601.days, day20240101.days] : List Int) ≠
        [day20240101.days, day20240601.days]) := by
  refine ⟨⟨?_, by norm_num⟩, ⟨?_, by norm_num [day20240101, day20240601]⟩⟩
  · norm_num [lifoTieEngine, TaxEngine.new, strUpper, TaxEngine.add_acquisition,
      TaxEngine.add_disposal, TaxEngine.sort_lots, matchLots, consumeLot, min_def,
      day20240101, day20240701, lifoOrder, stableDesc, List.insertionSort,
      List.orderedInsert, TaxLot.unit_cost]
  · norm_num [hifoTieEngine, TaxEngine.new, strUpper, TaxEngine.add_acquisition,
      TaxEngine.add_disposal, TaxEngine.sort_lots, matchLots, consumeLot, min_def,
      day20240101, day20240601, day20240701, hifoOrder, stableDesc, List.insertionSort,
      List.orderedInsert, TaxLot.unit_cost]

/-- FIFO engine with a single 2-UNI lot. -/
def c5Engine1 : TaxEngine :=
  ((TaxEngine.new "FIFO").add_acquisition "UNI" 2 10 day20240101 "0xaaaa1111" "uniswap").1

/-- The engine after fully consuming that lot (it stays in the list with
amount 0). -/
def c5Engine2 : TaxEngine :=
  (c5Engine1.add_disposal "UNI" 2 20 day20240601 "0xbbbb2222" "uniswap" "swap").1

/-- C5 (counterexample): after the asset's only lot is exhausted (remaining
amount 0), a further disposal emits no tax event at all — the zero-cost-basis
fallback does not fire, because the asset's lot list is non-empty. -/
theorem C5_exhausted_lots_cex :
    ((c5Engine2.lots "UNI").map fun l => l.amount) = [0] ∧
    (c5Engine2.add_disposal "UNI" 1 5 day20240701 "0xcccc3333" "uniswap" "swap").2 = [] := by
  have hlots : (c5Engine2.lots "UNI").map (fun l => l.amount) = [0] := by
    norm_num [c5Engine2, c5Engine1, TaxEngine.new, strUpper, TaxEngine.add_acquisition,
      TaxEngine.add_disposal, TaxEngine.sort_lots, matchLots, consumeLot, min_def,
      day20240101, day20240601, fifoOrder, stableAsc, List.insertionSort,
      List.orderedInsert, TaxLot.unit_cost, applyUpdates, List.enum, List.enumFrom,
      List.find?]
  refine ⟨hlots, ?_⟩
  norm_num [c5Engine2, c5Engine1, TaxEngine.new, strUpper, TaxEngine.add_acquisition,
    TaxEngine.add_disposal, TaxEngine.sort_lots, matchLots, consumeLot, min_def,
    day20240101, day20240601, day20240701, fifoOrder, stableAsc, List.insertionSort,
    List.orderedInsert, TaxLot.unit_cost, applyUpdates, List.enum, List.enumFrom,
    List.find?]

/-- A concrete index-tagged lot pair for the sorting witness. -/
def witP : Nat × TaxLot :=
  (0, { asset := "UNI", amount := 1, cost_basis_usd := 10, acquired_date := day20240101,
        tx_hash := "0xaaaa1111", protocol := "uniswap", lot_id := "" })

/-- A second concrete index-tagged lot pair for the sorting witness. -/
def witQ : Nat × TaxLot :=
  (1, { asset := "UNI", amount := 1, cost_basis_usd := 20, acquired_date := day20240601,
        tx_hash := "0xbbbb2222", protocol := "uniswap", lot_id := "" })

/-- Witness for C4: the FIFO branch of the ordering theorem at a concrete
engine and lot list. -/
theorem C4_stable_order_witness :
    ((TaxEngine.new "FIFO").sort_lots [witP, witQ] 0).Perm [witP, witQ] ∧
      List.Sorted fifoOrder ((TaxEngine.new "FIFO").sort_lots [witP, witQ] 0) :=
  (C4_stable_order (TaxEngine.new "FIFO") [witP, witQ] 0).1 rfl

/-- Witness for C5 (amended): disposing from a fresh engine with no lots. -/
theorem C5_empty_fallback_witness :
    ((TaxEngine.new "FIFO").add_disposal "UNI" 3 30 day20240101 "0xaaaa1111" "uniswap"
        "swap").2 =
      [{ asset := "UNI", amount_disposed := 3, proceeds_usd := 30, cost_basis_usd := 0,
         gain_loss_usd := 30, acquired_date := day20240101, disposed_date := day20240101,
         holding_period := "short", tx_hash := "0xaaaa1111", protocol := "uniswap",
         event_type := "swap" }] :=
  C5_empty_fallback (TaxEngine.new "FIFO") "UNI" 3 30 day20240101 "0xaaaa1111" "uniswap"
    "swap" rfl

/-- A concrete lot for the unit-cost-preservation witness. -/
def witConsumed : TaxLot :=
  { asset := "UNI", amount := 4, cost_basis_usd := 8, acquired_date := day20240101,
    tx_hash := "0xaaaa1111", protocol := "uniswap", lot_id := "" }

/-- Witness for C6: the invariant after one concrete valid acquisition, and
unit-cost preservation for one concrete partial consumption. -/
theorem C6_lot_invariants_witness :
    engineOk (runOps (TaxEngine.new "FIFO")
      [LedgerOp.acquisition "UNI" 2 10 day20240101 "0xaaaa1111" "uniswap"]) ∧
    ((consumeLot witConsumed 1).2.2).unit_cost = witConsumed.unit_cost :=
  ⟨C6_lot_invariants.1 "FIFO"
      [LedgerOp.acquisition "UNI" 2 10 day20240101 "0xaaaa1111" "uniswap"]
      (fun op hop => by
        rw [List.mem_singleton] at hop
        subst hop
        exact ⟨by norm_num, by norm_num⟩),
   C6_lot_invariants.2 witConsumed 1 (by norm_num) (by norm_num [witConsumed])⟩

/-- A concrete acquisition input for the conservation witness. -/
def witAcq : AcqInput :=
  { amount := 2, cost_basis_usd := 10, acquired_date := day20240101,
    tx_hash := "0xaaaa1111", protocol := "uniswap" }

/-- Witness for C7: conservation for one concrete acquisition followed by a
full disposal. -/
theorem C7_conservation_witness :
    ((((acquireAll (TaxEngine.new "FIFO") "UNI" [witAcq]).add_disposal "UNI"
          (([witAcq].map fun a => a.amount).sum) 30 day20240701 "0xbbbb2222" "uniswap"
          "swap").2.map fun ev => ev.cost_basis_usd).sum =
      ([witAcq].map fun a => a.cost_basis_usd).sum) ∧
    ((((acquireAll (TaxEngine.new "FIFO") "UNI" [witAcq]).add_disposal "UNI"
          (([witAcq].map fun a => a.amount).sum) 30 day20240701 "0xbbbb2222" "uniswap"
          "swap").2.map fun ev => ev.amount_disposed).sum =
      ([witAcq].map fun a => a.amount).sum) :=
  C7_conservation "FIFO" "UNI" [witAcq] 30 day20240701 "0xbbbb2222" "uniswap" "swap"
    (fun a ha => by
      rw [List.mem_singleton] at ha
      subst ha
      norm_num [witAcq])

/-- FIFO engine with one UNI lot acquired 366 days before the disposal used in
the C8 witness. -/
def c8Engine : TaxEngine :=
  ((TaxEngine.new "FIFO").add_acquisition "UNI" 1 10 ⟨738500, 2023⟩ "0xaaaa1111"
      "uniswap").1

/-- The single event emitted by the C8 witness disposal (366 days held, hence
"long"). -/
def c8Ev : TaxEvent :=
  { asset := "UNI", amount_disposed := 1, proceeds_usd := 20, cost_basis_usd := 10,
    gain_loss_usd := 10, acquired_date := ⟨738500, 2023⟩, disposed_date := ⟨738866, 2024⟩,
    holding_period := "long", tx_hash := "0xbbbb2222", protocol := "uniswap",
    event_type := "swap" }

/-- Witness for C8: the holding-period characterization at a concrete event of
a concrete disposal (held 366 days, classified "long"). -/
theorem C8_holding_period_witness :
    c8Ev.disposed_date = ⟨738866, 2024⟩ ∧
      (c8Ev.holding_period = "long" ↔
        365 < (⟨738866, 2024⟩ : Date).days - c8Ev.acquired_date.days) :=
  C8_holding_period c8Engine "UNI" 1 20 ⟨738866, 2024⟩ "0xbbbb2222" "uniswap" "swap" c8Ev
    (by norm_num [c8Engine, c8Ev, TaxEngine.new, strUpper, TaxEngine.add_acquisition,
      TaxEngine.add_disposal, TaxEngine.sort_lots, matchLots, consumeLot, min_def,
      fifoOrder, stableAsc, List.insertionSort, List.orderedInsert, TaxLot.unit_cost])

/-- Witness for C10: the fallback disposal of a fresh engine, checked against
the report rows. -/
theorem C10_fallback_dates_witness :
    ((TaxEngine.new "FIFO").add_disposal "UNI" 7 45 day20240601 "0xdddd4444" "uniswap"
        "swap").2.length = 1 ∧
    ∀ ev ∈ ((TaxEngine.new "FIFO").add_disposal "UNI" 7 45 day20240601 "0xdddd4444"
        "uniswap" "swap").2,
      ev.acquired_date = ev.disposed_date ∧ ev.amount_disposed = 7 ∧
      (form8949Row ev).date_acquired = (form8949Row ev).date_sold ∧
      (csvRow ev).date_acquired = (csvRow ev).date_sold :=
  C10_fallback_dates (TaxEngine.new "FIFO") "UNI" 7 45 day20240601 "0xdddd4444" "uniswap"
    "swap" rfl
